import Mathlib

/-!
# CogniRead content engine — verification development

Shallow embedding of the readability-metrics, idiom-scanner, DOM text-transform
and content-chunking code of the CogniRead browser extension
(`cognitive-engine.js`, the `fallbackIdiomDetection` service method, and the
idioms dictionary), together with proofs and refutations of the specified
properties.

JavaScript numbers are modelled by `JSNum`: `NaN`, the two infinities, and a
finite value carried as an exact rational.  All divisions appearing in the
embedded code have natural-number operands, so the exact-rational model agrees
with IEEE doubles on every property proved here (NaN production, infinity
propagation, and membership of the clamped score in `[0,100]` are unaffected
by rounding).  `toFixed(2)` followed by numeric coercion is modelled as
rounding to two decimal places (`NaN`/infinities pass through, matching the
coercion of the strings `"NaN"`/`"Infinity"`).
-/

/-- A JavaScript number: `NaN`, `±Infinity`, or a finite value (exact ℚ). -/
inductive JSNum where
  | nan : JSNum
  | posInf : JSNum
  | negInf : JSNum
  | fin : ℚ → JSNum
deriving DecidableEq, Repr

namespace JSNum

/-- JS division `a / b` for nonnegative integer operands:
`0/0 = NaN`, `a/0 = Infinity` for `a > 0`, otherwise exact. -/
def natDiv (a b : Nat) : JSNum :=
  if b = 0 then (if a = 0 then nan else posInf) else fin ((a : ℚ) / (b : ℚ))

/-- JS multiplication with NaN/infinity propagation (only nonnegative finite
factors occur in the embedded code, but the definition is total). -/
def mul : JSNum → JSNum → JSNum
  | nan, _ => nan
  | _, nan => nan
  | posInf, posInf => posInf
  | posInf, negInf => negInf
  | negInf, posInf => negInf
  | negInf, negInf => posInf
  | posInf, fin q => if 0 < q then posInf else if q < 0 then negInf else nan
  | fin q, posInf => if 0 < q then posInf else if q < 0 then negInf else nan
  | negInf, fin q => if 0 < q then negInf else if q < 0 then posInf else nan
  | fin q, negInf => if 0 < q then negInf else if q < 0 then posInf else nan
  | fin a, fin b => fin (a * b)

/-- JS subtraction with NaN/infinity propagation. -/
def sub : JSNum → JSNum → JSNum
  | nan, _ => nan
  | _, nan => nan
  | posInf, posInf => nan
  | posInf, negInf => posInf
  | posInf, fin _ => posInf
  | negInf, negInf => nan
  | negInf, posInf => negInf
  | negInf, fin _ => negInf
  | fin _, posInf => negInf
  | fin _, negInf => posInf
  | fin a, fin b => fin (a - b)

/-- `x.toFixed(2)` coerced back to a number (as `Math.min`/`Math.max` do):
`NaN` and the infinities survive the string round trip, finite values are
rounded to two decimal places. -/
def toFixed2 : JSNum → JSNum
  | fin q => fin ((round (q * 100) : ℤ) / 100)
  | x => x

/-- `Math.min(a, b)`: `NaN` if either argument is `NaN`. -/
def jsMin : JSNum → JSNum → JSNum
  | nan, _ => nan
  | _, nan => nan
  | negInf, _ => negInf
  | _, negInf => negInf
  | posInf, y => y
  | x, posInf => x
  | fin a, fin b => fin (min a b)

/-- `Math.max(a, b)`: `NaN` if either argument is `NaN`. -/
def jsMax : JSNum → JSNum → JSNum
  | nan, _ => nan
  | _, nan => nan
  | posInf, _ => posInf
  | _, posInf => posInf
  | negInf, y => y
  | x, negInf => x
  | fin a, fin b => fin (max a b)

/-- `Math.ceil`. -/
def jsCeil : JSNum → JSNum
  | fin q => fin (⌈q⌉ : ℤ)
  | x => x

/-- JS `x > c` against a finite constant: false when `x` is `NaN`. -/
def gtQ (x : JSNum) (c : ℚ) : Bool :=
  match x with
  | nan => false
  | posInf => true
  | negInf => false
  | fin q => decide (c < q)

/-- JS `x < c` against a finite constant: false when `x` is `NaN`. -/
def ltQ (x : JSNum) (c : ℚ) : Bool :=
  match x with
  | nan => false
  | posInf => false
  | negInf => true
  | fin q => decide (q < c)

end JSNum

/-! ## Tokenisation (`calculateBasicMetrics` text splitting) -/

/-- The whitespace class of the JS regex `\s` (ASCII part plus NBSP; the
exotic Unicode space separators never influence the claims proved here). -/
def jsWhitespace (c : Char) : Bool :=
  c = ' ' || c = '\t' || c = '\n' || c = '\r' || c = '\x0b' || c = '\x0c' || c = ' '

/-- Split a character list at every character satisfying `p` (the pieces keep
their order, separators are dropped, empty pieces are kept — exactly
`String.split`).  `acc` holds the current piece reversed.  Splitting on each
whitespace character and then discarding empty pieces yields exactly the same
list as JS's split on maximal runs (`/\s+/`, `/[.!?]+/`) followed by the same
filter. -/
def splitChars (p : Char → Bool) : List Char → List Char → List String
  | [], acc => [String.mk acc.reverse]
  | c :: rest, acc =>
      if p c then String.mk acc.reverse :: splitChars p rest []
      else splitChars p rest (c :: acc)

/-- `String.prototype.trim`: drop leading and trailing whitespace. -/
def trimChars (l : List Char) : List Char :=
  ((l.dropWhile jsWhitespace).reverse.dropWhile jsWhitespace).reverse

/-- `s.trim()`. -/
def strTrim (s : String) : String :=
  String.mk (trimChars s.data)

/-- ASCII lowercasing of one character (`String.prototype.toLowerCase` on the
ASCII inputs that occur in this development). -/
def lowerChar (c : Char) : Char :=
  match c with
  | 'A' => 'a' | 'B' => 'b' | 'C' => 'c' | 'D' => 'd' | 'E' => 'e'
  | 'F' => 'f' | 'G' => 'g' | 'H' => 'h' | 'I' => 'i' | 'J' => 'j'
  | 'K' => 'k' | 'L' => 'l' | 'M' => 'm' | 'N' => 'n' | 'O' => 'o'
  | 'P' => 'p' | 'Q' => 'q' | 'R' => 'r' | 'S' => 's' | 'T' => 't'
  | 'U' => 'u' | 'V' => 'v' | 'W' => 'w' | 'X' => 'x' | 'Y' => 'y'
  | 'Z' => 'z' | c => c

/-- `s.toLowerCase()`. -/
def strLower (s : String) : String :=
  String.mk (s.data.map lowerChar)

/-- `text.split(/\s+/).filter(w => w.length > 0)`. -/
def jsWords (text : String) : List String :=
  (splitChars jsWhitespace text.data []).filter (fun w => w.length > 0)

/-- `text.split(/[.!?]+/).filter(s => s.trim().length > 0)`. -/
def jsSentences (text : String) : List String :=
  (splitChars (fun c => c = '.' || c = '!' || c = '?') text.data []).filter
    (fun s => (strTrim s).length > 0)

/-- Split at maximal runs of two-or-more newlines — the separators the JS
regex `/\n\n+/` matches (leftmost, greedy).  A state machine over the
characters: state `0` is inside a piece, state `1` has just seen a single
newline (still part of the piece), state `2` is consuming a separator run.
`acc` holds the current piece reversed. -/
def splitBlankLinesAux : Nat → List Char → List Char → List String
  | 0, [], acc => [String.mk acc.reverse]
  | 0, c :: rest, acc =>
      if c = '\n' then splitBlankLinesAux 1 rest acc
      else splitBlankLinesAux 0 rest (c :: acc)
  | 1, [], acc => [String.mk ('\n' :: acc).reverse]
  | 1, c :: rest, acc =>
      if c = '\n' then String.mk acc.reverse :: splitBlankLinesAux 2 rest []
      else splitBlankLinesAux 0 rest (c :: '\n' :: acc)
  | _, [], _ => [String.mk []]
  | _, c :: rest, _ =>
      if c = '\n' then splitBlankLinesAux 2 rest []
      else splitBlankLinesAux 0 rest [c]

/-- `text.split(/\n\n+/).filter(p => p.trim().length > 0)`. -/
def jsParagraphs (text : String) : List String :=
  (splitBlankLinesAux 0 text.data []).filter (fun p => (strTrim p).length > 0)

/-! ## Syllable counting (`countSyllables`) -/

/-- The character class `[laeiouy]` of the suffix-stripping regex
`/(?:[^laeiouy]es|ed|[^laeiouy]e)$/` (it really does include `l`). -/
def laeiouy (c : Char) : Bool :=
  c = 'l' || c = 'a' || c = 'e' || c = 'i' || c = 'o' || c = 'u' || c = 'y'

/-- The vowel class `[aeiouy]` of the syllable-group regex. -/
def aeiouy (c : Char) : Bool :=
  c = 'a' || c = 'e' || c = 'i' || c = 'o' || c = 'u' || c = 'y'

/-- `word.replace(/(?:[^laeiouy]es|ed|[^laeiouy]e)$/, '')`.  The three
alternatives are anchored at the end of the word and keyed on distinct last
characters (`s`, `d`, `e`), so the regex removes at most one of:
a non-`[laeiouy]` character followed by `es` (three characters), a trailing
`ed`, or a non-`[laeiouy]` character followed by `e`. -/
def stripWordEnding (w : List Char) : List Char :=
  match w.reverse with
  | 's' :: 'e' :: c :: rest => if laeiouy c then w else rest.reverse
  | 'd' :: 'e' :: rest => rest.reverse
  | 'e' :: c :: rest => if laeiouy c then w else rest.reverse
  | _ => w

/-- Number of matches of `/[aeiouy]{1,2}/g`: a greedy left-to-right scan that
consumes vowels two at a time inside each vowel run. -/
def countVowelGroups : List Char → Nat
  | [] => 0
  | [c] => if aeiouy c then 1 else 0
  | c :: c2 :: rest =>
      if aeiouy c then
        if aeiouy c2 then 1 + countVowelGroups rest
        else 1 + countVowelGroups (c2 :: rest)
      else countVowelGroups (c2 :: rest)

/-- `countSyllables(word)` from `cognitive-engine.js`: lowercase, short words
count one syllable, otherwise strip the suffix and a leading `y` and count
vowel groups (at least one). -/
def countSyllables (word : String) : Nat :=
  let w := word.data.map lowerChar
  if w.length ≤ 3 then 1
  else
    let w1 := stripWordEnding w
    let w2 := match w1 with
      | 'y' :: rest => rest
      | l => l
    let g := countVowelGroups w2
    if g = 0 then 1 else g

/-! ## `calculateBasicMetrics` and `analyzeComplexity` -/

/-- The record returned by `calculateBasicMetrics`.  In JS the three `avg*`
fields are the strings produced by `toFixed(2)` and `fleschScore` is a number;
all four are modelled as `JSNum` (the string `"NaN"` corresponds to
`JSNum.nan`, which is also what it coerces back to). -/
structure BasicMetrics where
  wordCount : Nat
  sentenceCount : Nat
  paragraphCount : Nat
  avgWordLength : JSNum
  avgSentenceLength : JSNum
  avgParagraphLength : JSNum
  fleschScore : JSNum
  estimatedReadingTime : JSNum
deriving DecidableEq, Repr

/-- `calculateBasicMetrics(text)` from `cognitive-engine.js`, line for line:
unguarded divisions by `words.length`, `sentences.length` and
`paragraphs.length`, the raw Flesch formula
`206.835 − 1.015·avgSentenceLength − 84.6·(syllables/words.length)`,
and `Math.max(0, Math.min(100, flesch.toFixed(2)))`. -/
def calculateBasicMetrics (text : String) : BasicMetrics :=
  let words := jsWords text
  let sentences := jsSentences text
  let paragraphs := jsParagraphs text
  let sumWordLength := words.foldl (fun a w => a + w.length) 0
  let avgWordLength := JSNum.natDiv sumWordLength words.length
  let avgSentenceLength := JSNum.natDiv words.length sentences.length
  let avgParagraphLength := JSNum.natDiv words.length paragraphs.length
  let syllables := words.foldl (fun a w => a + countSyllables w) 0
  let fleschScore :=
    JSNum.sub
      (JSNum.sub (JSNum.fin 206.835)
        (JSNum.mul (JSNum.fin 1.015) avgSentenceLength))
      (JSNum.mul (JSNum.fin 84.6) (JSNum.natDiv syllables words.length))
  { wordCount := words.length
    sentenceCount := sentences.length
    paragraphCount := paragraphs.length
    avgWordLength := JSNum.toFixed2 avgWordLength
    avgSentenceLength := JSNum.toFixed2 avgSentenceLength
    avgParagraphLength := JSNum.toFixed2 avgParagraphLength
    fleschScore :=
      JSNum.jsMax (JSNum.fin 0) (JSNum.jsMin (JSNum.fin 100)
        (JSNum.toFixed2 fleschScore))
    estimatedReadingTime := JSNum.jsCeil (JSNum.natDiv words.length 200) }

/-- `calculateOverallComplexity(basic, null)` as `analyzeComplexity` calls it:
all comparisons against `NaN` fields are false, the AI branch is skipped, and
the score is clamped with `Math.max(1, Math.min(10, Math.round(score)))`
(the score is an integer here, so `Math.round` is the identity). -/
def calculateOverallComplexity (basic : BasicMetrics) : ℤ :=
  let s1 : ℤ := 5 +
    (if basic.avgSentenceLength.gtQ 25 then 2
     else if basic.avgSentenceLength.gtQ 20 then 1
     else if basic.avgSentenceLength.ltQ 10 then -1
     else 0)
  let s2 : ℤ := s1 +
    (if basic.fleschScore.ltQ 30 then 2
     else if basic.fleschScore.ltQ 50 then 1
     else if basic.fleschScore.gtQ 80 then -1
     else 0)
  max 1 (min 10 s2)

/-- `analyzeComplexity(text)`: the basic metrics plus `overallComplexity`. -/
def analyzeComplexity (text : String) : BasicMetrics × ℤ :=
  let basic := calculateBasicMetrics text
  (basic, calculateOverallComplexity basic)

/-- A JS number that is finite and lies in the closed interval `[0, 100]`
(in particular it is not `NaN`). -/
def InUnitRange (x : JSNum) : Prop :=
  ∃ q : ℚ, x = JSNum.fin q ∧ 0 ≤ q ∧ q ≤ 100

/-! ## Idiom scanner (`fallbackIdiomDetection` and `IDIOMS_DICTIONARY`) -/

/-- `needle` occurs as a contiguous substring of `hay`
(JS `String.prototype.includes`). -/
def containsSub : List Char → List Char → Bool
  | needle, [] => needle.isEmpty
  | needle, c :: rest => needle.isPrefixOf (c :: rest) || containsSub needle rest

/-- `hay.includes(needle)`. -/
def strIncludes (hay needle : String) : Bool :=
  containsSub needle.data hay.data

/-- The ordering used by
`Object.entries(idioms).sort((a, b) => b[0].length - a[0].length)`:
entries with longer idiom phrases come first. -/
def lenGE (a b : String × String) : Prop :=
  b.1.length ≤ a.1.length

instance : DecidableRel lenGE :=
  fun a b => Nat.decLe b.1.length a.1.length

instance : IsTotal (String × String) lenGE :=
  ⟨fun a b => Nat.le_total b.1.length a.1.length⟩

instance : IsTrans (String × String) lenGE :=
  ⟨fun _ _ _ h1 h2 => Nat.le_trans h2 h1⟩

/-- The result object of idiom detection.  JS omits the `idiom`/`literal`
fields when `hasIdiom` is false; the absent fields are modelled as `none`. -/
structure IdiomResult where
  hasIdiom : Bool
  idiom : Option String
  literal : Option String
deriving DecidableEq, Repr

/-- The static idiom → literal-meaning table from `idioms-dictionary.js`
(`IDIOMS_DICTIONARY`), in source (insertion) order, which is the order
`Object.entries` enumerates these string keys in. -/
def IDIOMS_DICTIONARY : List (String × String) := [
    ("a hot potato", "a disputed issue that many people are talking about"),
    ("a penny for your thoughts", "asking what someone is thinking"),
    ("actions speak louder than words", "intentions are judged by actions not words"),
    ("add insult to injury", "make a bad situation worse"),
    ("an arm and a leg", "very expensive"),
    ("as right as rain", "perfect or in good health"),
    ("at the drop of a hat", "without any hesitation"),
    ("back to the drawing board", "start over after a failure"),
    ("ball is in your court", "it is your decision"),
    ("barking up the wrong tree", "looking in the wrong place"),
    ("be glad to see the back of", "be happy when a person leaves"),
    ("beat around the bush", "avoiding the main topic"),
    ("best of both worlds", "all the advantages"),
    ("best thing since sliced bread", "a good invention or innovation"),
    ("bite off more than you can chew", "take on a task that is too big"),
    ("blessing in disguise", "something good that is not recognized at first"),
    ("break a leg", "good luck"),
    ("burn the midnight oil", "work late into the night"),
    ("by the skin of your teeth", "just barely"),
    ("can\x27t judge a book by its cover", "cannot judge by appearance"),
    ("caught between two stools", "difficult to choose between two alternatives"),
    ("come rain or shine", "no matter what happens"),
    ("costs an arm and a leg", "very expensive"),
    ("cross that bridge when you come to it", "deal with a problem when it happens"),
    ("cry over spilt milk", "complain about a loss from the past"),
    ("curiosity killed the cat", "being inquisitive can lead to trouble"),
    ("cut corners", "done badly to save money"),
    ("cut the mustard", "succeed or meet expectations"),
    ("devil\x27s advocate", "present a counter argument"),
    ("don\x27t count your chickens before the eggs have hatched", "do not make plans for something that might not happen"),
    ("don\x27t give up the day job", "you are not very good at something"),
    ("don\x27t put all your eggs in one basket", "do not put all resources in one possibility"),
    ("drastic times call for drastic measures", "desperate situations need drastic actions"),
    ("elvis has left the building", "the show has come to an end"),
    ("every cloud has a silver lining", "be optimistic even in difficult times"),
    ("far cry from", "very different from"),
    ("feel a bit under the weather", "feeling slightly ill"),
    ("give the benefit of the doubt", "believe someone without proof"),
    ("go back to the drawing board", "start over"),
    ("go down in flames", "fail spectacularly"),
    ("get out of hand", "become uncontrollable"),
    ("get your act together", "organize yourself"),
    ("give someone the cold shoulder", "ignore someone"),
    ("hear it on the grapevine", "hear rumors"),
    ("hit the nail on the head", "do or say something exactly right"),
    ("hit the sack", "go to bed"),
    ("hit the sheets", "go to bed"),
    ("hit the hay", "go to bed"),
    ("hang in there", "persevere"),
    ("in the heat of the moment", "overwhelmed by what is happening"),
    ("it takes two to tango", "actions need more than one person"),
    ("jump on the bandwagon", "join a popular trend"),
    ("keep something at bay", "keep something away"),
    ("kill two birds with one stone", "accomplish two things at the same time"),
    ("last straw", "the final problem in a series"),
    ("let sleeping dogs lie", "do not disturb a situation"),
    ("let the cat out of the bag", "share information that was concealed"),
    ("let someone off the hook", "not punish someone"),
    ("make a long story short", "come to the point"),
    ("method to my madness", "there is structure to my approach"),
    ("miss the boat", "miss your chance"),
    ("not a spark of decency", "no manners"),
    ("not playing with a full deck", "lacks intelligence"),
    ("no pain, no gain", "hard work brings rewards"),
    ("off one\x27s rocker", "crazy or demented"),
    ("on the ball", "understands the situation well"),
    ("once in a blue moon", "happens very rarely"),
    ("picture paints a thousand words", "visual presentation is more descriptive"),
    ("piece of cake", "easy or simple task"),
    ("pull someone\x27s leg", "joke with someone or tease them"),
    ("pull yourself together", "calm down"),
    ("put wool over other people\x27s eyes", "deceive someone"),
    ("sat on the fence", "not make a decision"),
    ("see eye to eye", "agree on something"),
    ("sit on the fence", "not make a decision"),
    ("speak of the devil", "the person being talked about arrives"),
    ("steal someone\x27s thunder", "take credit for what someone else did"),
    ("so far so good", "everything is okay"),
    ("spill the beans", "reveal a secret"),
    ("take with a grain of salt", "do not take too seriously"),
    ("take with a pinch of salt", "do not take too seriously"),
    ("taste of your own medicine", "something you did to others happens to you"),
    ("through thick and thin", "in good times and bad times"),
    ("to hear something straight from the horse\x27s mouth", "hear from the authoritative source"),
    ("the ball is in your court", "it is your decision"),
    ("the best of both worlds", "ideal situation"),
    ("the last straw", "the final problem"),
    ("that ship has sailed", "that opportunity is gone"),
    ("throw in the towel", "give up"),
    ("under the weather", "feeling sick"),
    ("whole nine yards", "everything"),
    ("wouldn\x27t be caught dead", "would never like to do something"),
    ("you can say that again", "I agree completely"),
    ("your guess is as good as mine", "I do not know the answer")
]

/-- `fallbackIdiomDetection(sentence)` from the AI service: dictionary-mode
idiom scanning.  `window.IDIOMS_DICTIONARY` may be absent (`none`); an absent
or empty dictionary yields `{hasIdiom: false}`.  Otherwise the entries are
sorted longest-phrase-first and the first entry whose lowercased phrase is a
substring of the lowercased sentence wins.  `List.insertionSort` is a stable
sort, as `Array.prototype.sort` is required to be. -/
def fallbackIdiomDetection (dict : Option (List (String × String)))
    (sentence : String) : IdiomResult :=
  let idioms := dict.getD []
  if idioms.length = 0 then ⟨false, none, none⟩
  else
    let lowerSentence := strLower sentence
    let sortedIdioms := List.insertionSort lenGE idioms
    match sortedIdioms.find? (fun e => strIncludes lowerSentence (strLower e.1)) with
    | some e => ⟨true, some e.1, some e.2⟩
    | none => ⟨false, none, none⟩

/-! ## Reversible DOM text transforms (`applyTextSimplification`,
`applyTextExpansion`, `applyToneAdjustment`, `remove*`) -/

def simplifiedClass : String := "cogniread-simplified-text"

def expandedClass : String := "cogniread-expanded-text"

def toneClass : String := "cogniread-tone-adjusted"

/-- A content paragraph (`<p>`) as the transform pipeline sees it: its
serialized markup (`innerHTML`), its class list, the two `dataset` snapshot
slots, and whether
`p.closest('nav, header, footer, aside, .ad, .advertisement')` matches
(a property of the surrounding page, hence a field). -/
structure PNode where
  innerHTML : String
  classes : List String
  dataOriginalHTML : Option String
  dataOriginalText : Option String
  inUnwanted : Bool
deriving DecidableEq, Repr

/-- `classList.add`: appends the token unless already present. -/
def addClass (cls : String) (l : List String) : List String :=
  if l.contains cls then l else l ++ [cls]

/-- `classList.remove`: drops the token. -/
def removeClass (cls : String) (l : List String) : List String :=
  l.filter (fun c => c ≠ cls)

/-- JS truthiness of a `dataset` slot: absent (`undefined`) and the empty
string are falsy, every other string is truthy. -/
def isTruthy : Option String → Bool
  | none => false
  | some s => s.length > 0

/-- Escape `&`, `<`, `>` — what the browser serializer does to a text node. -/
def escapeChars : List Char → List Char
  | [] => []
  | '&' :: rest => '&' :: 'a' :: 'm' :: 'p' :: ';' :: escapeChars rest
  | '<' :: rest => '&' :: 'l' :: 't' :: ';' :: escapeChars rest
  | '>' :: rest => '&' :: 'g' :: 't' :: ';' :: escapeChars rest
  | c :: rest => c :: escapeChars rest

/-- `escapeHtml(text)` from `cognitive-engine.js`
(`div.textContent = text; return div.innerHTML`). -/
def escapeHtml (s : String) : String :=
  String.mk (escapeChars s.data)

/-- Drop `<...>` tag spans from serialized markup (the `Bool` records whether
the scan is inside a tag). -/
def stripTagsAux : Bool → List Char → List Char
  | _, [] => []
  | false, c :: rest =>
      if c = '<' then stripTagsAux true rest
      else c :: stripTagsAux false rest
  | true, c :: rest =>
      if c = '>' then stripTagsAux false rest
      else stripTagsAux true rest

/-- Decode the three entities `escapeChars` produces. -/
def decodeEntities : List Char → List Char
  | [] => []
  | '&' :: 'a' :: 'm' :: 'p' :: ';' :: rest => '&' :: decodeEntities rest
  | '&' :: 'l' :: 't' :: ';' :: rest => '<' :: decodeEntities rest
  | '&' :: 'g' :: 't' :: ';' :: rest => '>' :: decodeEntities rest
  | c :: rest => c :: decodeEntities rest

/-- `element.textContent`, as a function of the element's serialized
`innerHTML`: markup tags contribute nothing, text is entity-decoded. -/
def textOf (html : String) : String :=
  String.mk (decodeEntities (stripTagsAux false html.data))

/-- `findSubstantialParagraphs` / the inline filters of the simplification and
expansion batches: not inside
`nav, header, footer, aside, .ad, .advertisement`, and
`textContent.trim().length >= 20`. -/
def substantialNode (p : PNode) : Bool :=
  !p.inUnwanted && decide (20 ≤ (strTrim (textOf p.innerHTML)).length)

/-- One paragraph of the simplification batch.  `result` is the outcome of
`await aiService.simplifyText(...)`: `some s` on success, `none` when the call
throws.  On success the pre-transform markup and trimmed text are stored in
the dataset, the content is replaced by the escaped result, and the marker
class is added; on failure the content is kept but the node is still marked. -/
def simplifyNode (result : Option String) (p : PNode) : PNode :=
  match result with
  | some s =>
      { p with
        dataOriginalHTML := some p.innerHTML
        dataOriginalText := some (strTrim (textOf p.innerHTML))
        innerHTML := escapeHtml s
        classes := addClass simplifiedClass p.classes }
  | none =>
      { p with
        dataOriginalText := some (strTrim (textOf p.innerHTML))
        classes := addClass simplifiedClass p.classes }

/-- One paragraph of the expansion batch (same shape as `simplifyNode`). -/
def expandNode (result : Option String) (p : PNode) : PNode :=
  match result with
  | some s =>
      { p with
        dataOriginalHTML := some p.innerHTML
        dataOriginalText := some (strTrim (textOf p.innerHTML))
        innerHTML := escapeHtml s
        classes := addClass expandedClass p.classes }
  | none =>
      { p with
        dataOriginalText := some (strTrim (textOf p.innerHTML))
        classes := addClass expandedClass p.classes }

/-- One paragraph of the tone-adjustment batch: its `catch` block only logs,
so a failed paragraph is left completely untouched — no marker class. -/
def toneNode (result : Option String) (p : PNode) : PNode :=
  match result with
  | some s =>
      { p with
        dataOriginalHTML := some p.innerHTML
        dataOriginalText := some (strTrim (textOf p.innerHTML))
        innerHTML := escapeHtml s
        classes := addClass toneClass p.classes }
  | none => p

/-- A transform batch: walk the page's paragraphs in document order, apply
`f` to each substantial one with the corresponding external-call outcome
(`ai k` for the `k`-th substantial paragraph), leave the others untouched.
The loop never aborts: every paragraph is visited regardless of earlier
failures.  (The code's early returns for "no paragraphs"/"no substantial
paragraphs" coincide with this definition, which leaves such pages
unchanged.) -/
def runBatch (f : Option String → PNode → PNode) (ai : Nat → Option String) :
    List PNode → Nat → List PNode
  | [], _ => []
  | p :: rest, k =>
      if substantialNode p then f (ai k) p :: runBatch f ai rest (k + 1)
      else p :: runBatch f ai rest k

/-- Number of substantial paragraphs of a page fragment. -/
def countSubstantial (l : List PNode) : Nat :=
  (l.filter substantialNode).length

/-- `applyTextSimplification` restricted to its DOM effect. -/
def applyTextSimplification (ai : Nat → Option String) (page : List PNode) :
    List PNode :=
  runBatch simplifyNode ai page 0

/-- `applyTextExpansion` restricted to its DOM effect. -/
def applyTextExpansion (ai : Nat → Option String) (page : List PNode) :
    List PNode :=
  runBatch expandNode ai page 0

/-- `applyToneAdjustment` restricted to its DOM effect. -/
def applyToneAdjustmentBatch (ai : Nat → Option String) (page : List PNode) :
    List PNode :=
  runBatch toneNode ai page 0

/-- `removeSimplification` on one node (`querySelectorAll` only selects nodes
carrying the marker class; others are untouched).  The dataset checks are JS
truthiness tests, so an empty-string snapshot counts as absent. -/
def removeSimplificationNode (p : PNode) : PNode :=
  if p.classes.contains simplifiedClass then
    let p1 := { p with classes := removeClass simplifiedClass p.classes }
    if isTruthy p.dataOriginalHTML then
      { p1 with
        innerHTML := p.dataOriginalHTML.getD ""
        dataOriginalHTML := none
        dataOriginalText := none }
    else if isTruthy p.dataOriginalText then
      { p1 with
        innerHTML := escapeHtml (p.dataOriginalText.getD "")
        dataOriginalText := none }
    else p1
  else p

/-- `removeExpansion` on one node (same shape, other marker class). -/
def removeExpansionNode (p : PNode) : PNode :=
  if p.classes.contains expandedClass then
    let p1 := { p with classes := removeClass expandedClass p.classes }
    if isTruthy p.dataOriginalHTML then
      { p1 with
        innerHTML := p.dataOriginalHTML.getD ""
        dataOriginalHTML := none
        dataOriginalText := none }
    else if isTruthy p.dataOriginalText then
      { p1 with
        innerHTML := escapeHtml (p.dataOriginalText.getD "")
        dataOriginalText := none }
    else p1
  else p

/-- `removeSimplification`: restore every marked paragraph.  (The function
also hides the extension's own loading modals, which are not part of the
page content modelled here.) -/
def removeSimplification (page : List PNode) : List PNode :=
  page.map removeSimplificationNode

/-- `removeExpansion`. -/
def removeExpansion (page : List PNode) : List PNode :=
  page.map removeExpansionNode

/-- The two orchestrator state flags relevant to the simplify/expand
interaction. -/
structure EngineState where
  simplificationLevel : Nat
  expansionMode : Bool
deriving DecidableEq, Repr

/-- `toggleExpansionMode(enabled)`: when enabling, first reverse an active
simplification (guarded by `state.simplificationLevel > 0`) and reset its
level, then run the expansion batch; when disabling, reverse the expansion. -/
def toggleExpansionMode (enabled : Bool) (ai : Nat → Option String)
    (st : EngineState) (page : List PNode) : EngineState × List PNode :=
  let st1 := { st with expansionMode := enabled }
  if enabled then
    if st1.simplificationLevel > 0 then
      ({ st1 with simplificationLevel := 0 },
        applyTextExpansion ai (removeSimplification page))
    else (st1, applyTextExpansion ai page)
  else (st1, removeExpansion page)

/-- `applySimplification(level)` (with the slider handler's preceding
`state.simplificationLevel = level`): always reverse the previous
simplification first, then — unless the level is 0 — run the simplification
batch.  It never touches an active expansion. -/
def applySimplification (level : Nat) (ai : Nat → Option String)
    (st : EngineState) (page : List PNode) : EngineState × List PNode :=
  let st1 := { st with simplificationLevel := level }
  let page1 := removeSimplification page
  if level = 0 then (st1, page1)
  else (st1, applyTextSimplification ai page1)

/-! ## Content chunker (`chunkContent`) -/

/-- A candidate element of `chunkContent` (one of the
`p, h1..h6, li, blockquote, div` candidates): its lowercased tag name, its
text content, the number of nested block descendants
(`p, h1..h6, div, article, section`), and the results of the ancestor
(`closest`) probes the filter performs. -/
structure ChunkElement where
  tag : String
  textContent : String
  childBlocks : Nat
  inNav : Bool
  inFooter : Bool
  inAdClass : Bool
  inAdvertClass : Bool
  inScript : Bool
  inStyle : Bool
  inHeader : Bool
  inArticle : Bool
  inCogniread : Bool
deriving DecidableEq, Repr

/-- The acceptance test of `chunkContent` for one candidate element:
excluded when inside `nav, footer, .ad, .advertisement, script, style`, or
inside a `header` that is not an article header
(`isArticleHeader = inHeader && inArticle`, where `inArticle` is
`closest('article, main, [role="main"], [role="article"]')`), or inside the
extension's own UI; then the length gate (50 chars for `div`, 10 otherwise)
and, for `div` only, the container heuristic (more than 2 nested blocks). -/
def includeChunk (e : ChunkElement) : Bool :=
  if e.inNav || e.inFooter || e.inAdClass || e.inAdvertClass
      || e.inScript || e.inStyle
      || (e.inHeader && !(e.inHeader && e.inArticle)) then false
  else if e.inCogniread then false
  else
    let text := strTrim e.textContent
    let minLength := if e.tag = "div" then 50 else 10
    if text.length < minLength then false
    else if e.tag = "div" && e.childBlocks > 2 then false
    else true

/-- `chunkContent` over the candidate elements of the container, in document
order: the accepted elements become `{text, type}` chunks. -/
def chunkContent (elements : List ChunkElement) : List (String × String) :=
  (elements.filter includeChunk).map (fun e => (strTrim e.textContent, e.tag))

/-! ## Concrete pages and transform outcomes used in the statements below -/

/-- An external-transform oracle that always succeeds with a short result. -/
def aiAlwaysSimple : Nat → Option String := fun _ => some "Plain short text."

/-- An external-transform oracle whose every call throws. -/
def aiAlwaysFails : Nat → Option String := fun _ => none

/-- A substantial, untransformed content paragraph. -/
def pPlainPara : PNode :=
  { innerHTML := "The committee deliberated at considerable length."
    classes := []
    dataOriginalHTML := none
    dataOriginalText := none
    inUnwanted := false }

/-- A substantial paragraph used for the failure-isolation witness. -/
def pFailurePara : PNode :=
  { innerHTML := "Quarterly results exceeded the projected estimates."
    classes := []
    dataOriginalHTML := none
    dataOriginalText := none
    inUnwanted := false }

/-- A substantial paragraph that currently carries an active expansion. -/
def pExpandedPara : PNode :=
  { innerHTML := "This paragraph was already expanded by the assistant."
    classes := ["cogniread-expanded-text"]
    dataOriginalHTML := some "Original expanded-paragraph markup, long enough."
    dataOriginalText := some "Original expanded-paragraph markup, long enough."
    inUnwanted := false }

/-- Orchestrator state with expansion active and simplification off. -/
def stExpansionActive : EngineState :=
  { simplificationLevel := 0, expansionMode := true }

/-- Orchestrator state with simplification at level 2 and expansion off. -/
def stSimplifyActive : EngineState :=
  { simplificationLevel := 2, expansionMode := false }

/-- A substantial paragraph carrying an active simplification. -/
def pSimplifiedPara : PNode :=
  { innerHTML := "Short and simple version of the original passage."
    classes := ["cogniread-simplified-text"]
    dataOriginalHTML := some "The original, considerably more intricate passage."
    dataOriginalText := some "The original, considerably more intricate passage."
    inUnwanted := false }

/-- A candidate element sitting inside a `<nav>` ancestor. -/
def eNavElement : ChunkElement :=
  { tag := "p"
    textContent := "Home News Sports Opinion Culture Technology Contact"
    childBlocks := 0
    inNav := true, inFooter := false, inAdClass := false
    inAdvertClass := false, inScript := false, inStyle := false
    inHeader := false, inArticle := false, inCogniread := false }

/-- A candidate element inside a `<header>` that is itself inside an
`<article>`. -/
def eArticleHeaderElement : ChunkElement :=
  { tag := "h1"
    textContent := "A Headline of Adequate Length"
    childBlocks := 0
    inNav := false, inFooter := false, inAdClass := false
    inAdvertClass := false, inScript := false, inStyle := false
    inHeader := true, inArticle := true, inCogniread := false }

/-! ## Readability-metrics properties -/

theorem jsnum_toFixed2_ne_nan {x : JSNum} (h : x ≠ JSNum.nan) :
    JSNum.toFixed2 x ≠ JSNum.nan := by
  cases x with
  | nan => exact absurd rfl h
  | posInf => simp [JSNum.toFixed2]
  | negInf => simp [JSNum.toFixed2]
  | fin q => simp [JSNum.toFixed2]

theorem clamp_inUnitRange (x : JSNum) (hx : x ≠ JSNum.nan) :
    InUnitRange (JSNum.jsMax (JSNum.fin 0) (JSNum.jsMin (JSNum.fin 100) x)) := by
  cases x with
  | nan => exact absurd rfl hx
  | posInf =>
      exact ⟨max 0 100, rfl, le_max_left _ _, max_le (by norm_num) (by norm_num)⟩
  | negInf => exact ⟨0, rfl, le_refl 0, by norm_num⟩
  | fin q =>
      exact ⟨max 0 (min 100 q), rfl, le_max_left _ _,
        max_le (by norm_num) (min_le_left _ _)⟩

theorem flesch_core_ne_nan (wc sc syl : Nat) (h : wc ≠ 0) :
    JSNum.sub
        (JSNum.sub (JSNum.fin 206.835)
          (JSNum.mul (JSNum.fin 1.015) (JSNum.natDiv wc sc)))
        (JSNum.mul (JSNum.fin 84.6) (JSNum.natDiv syl wc)) ≠ JSNum.nan := by
  have h3 : JSNum.natDiv syl wc = JSNum.fin ((syl : ℚ) / (wc : ℚ)) := by
    simp [JSNum.natDiv, h]
  rcases Nat.eq_zero_or_pos sc with hsc | hsc
  · have h1 : JSNum.natDiv wc sc = JSNum.posInf := by
      simp [JSNum.natDiv, hsc, h]
    have hq : (0 : ℚ) < 1.015 := by norm_num
    have h2 : JSNum.mul (JSNum.fin 1.015) JSNum.posInf = JSNum.posInf := by
      simp [JSNum.mul, hq]
    rw [h1, h2, h3]
    simp [JSNum.sub, JSNum.mul]
  · have h1 : JSNum.natDiv wc sc = JSNum.fin ((wc : ℚ) / (sc : ℚ)) := by
      simp [JSNum.natDiv, Nat.pos_iff_ne_zero.mp hsc]
    rw [h1, h3]
    simp [JSNum.sub, JSNum.mul]

/-- C1: for a text with zero words (here the empty string), the claim says
`calculateBasicMetrics` / `analyzeComplexity` must not produce `NaN` in any
field.  The code has no zero guard: the word, sentence and paragraph averages
and the Flesch score all come out as `NaN` (the `avg*` fields are the string
`"NaN"`).  Nothing throws — `analyzeComplexity` still completes, with every
`NaN` comparison silently false and overall complexity 5 — so exactly the
no-`NaN` half of the claim fails, as the spec itself flags ("known edge-case
gap"). -/
theorem metrics_nan_when_no_words :
    (calculateBasicMetrics "").wordCount = 0
    ∧ (calculateBasicMetrics "").fleschScore = JSNum.nan
    ∧ (calculateBasicMetrics "").avgWordLength = JSNum.nan
    ∧ (calculateBasicMetrics "").avgSentenceLength = JSNum.nan
    ∧ (calculateBasicMetrics "").avgParagraphLength = JSNum.nan
    ∧ (analyzeComplexity "").2 = 5 := by
  decide

/-- C2 counterexample: at the empty string (word count 0) the `fleschScore`
field is `NaN`, which is not in `[0, 100]` — the clamp
`Math.max(0, Math.min(100, ·))` propagates `NaN`. -/
theorem flesch_nan_outside_range :
    ¬ InUnitRange (calculateBasicMetrics "").fleschScore := by
  have e : (calculateBasicMetrics "").fleschScore = JSNum.nan := by decide
  rw [e]
  rintro ⟨q, hq, -, -⟩
  exact JSNum.noConfusion hq

/-- C2 (amended): for every input with at least one word, the `fleschScore`
field is a finite value in `[0, 100]`: with `wordCount > 0` the syllable
ratio is finite, and a zero sentence count only drives the raw score to
`-Infinity`, which the clamp turns into `0`. -/
theorem flesch_score_clamped (t : String)
    (h : 0 < (calculateBasicMetrics t).wordCount) :
    InUnitRange (calculateBasicMetrics t).fleschScore := by
  have hw : 0 < (jsWords t).length := h
  exact clamp_inUnitRange _
    (jsnum_toFixed2_ne_nan
      (flesch_core_ne_nan (jsWords t).length (jsSentences t).length
        ((jsWords t).foldl (fun a w => a + countSyllables w) 0)
        (Nat.pos_iff_ne_zero.mp hw)))

theorem flesch_score_clamped_witness :
    0 < (calculateBasicMetrics "Hello world.").wordCount
    ∧ InUnitRange (calculateBasicMetrics "Hello world.").fleschScore :=
  ⟨by decide, flesch_score_clamped "Hello world." (by decide)⟩

/-! ## Transform round-trip and idempotence -/

theorem length_dropWhile_le (p : Char → Bool) (l : List Char) :
    (l.dropWhile p).length ≤ l.length := by
  induction l with
  | nil => simp
  | cons c t ih =>
      rw [List.dropWhile_cons]
      by_cases h : p c = true
      · simp only [h, if_true]
        exact Nat.le_succ_of_le ih
      · simp [h]

theorem length_trimChars_le (l : List Char) :
    (trimChars l).length ≤ l.length := by
  unfold trimChars
  calc ((l.dropWhile jsWhitespace).reverse.dropWhile jsWhitespace).reverse.length
      = ((l.dropWhile jsWhitespace).reverse.dropWhile jsWhitespace).length := by
        simp
    _ ≤ (l.dropWhile jsWhitespace).reverse.length :=
        length_dropWhile_le _ _
    _ = (l.dropWhile jsWhitespace).length := by simp
    _ ≤ l.length := length_dropWhile_le _ _

theorem length_stripTagsAux_le (b : Bool) (l : List Char) :
    (stripTagsAux b l).length ≤ l.length := by
  induction l generalizing b with
  | nil => simp [stripTagsAux]
  | cons c t ih =>
      cases b with
      | false =>
          by_cases h : c = '<'
          · simp only [stripTagsAux, h, if_true]
            exact Nat.le_succ_of_le (ih true)
          · simp only [stripTagsAux, h, if_false]
            exact Nat.succ_le_succ (ih false)
      | true =>
          by_cases h : c = '>'
          · simp only [stripTagsAux, h, if_true]
            exact Nat.le_succ_of_le (ih false)
          · simp only [stripTagsAux, h, if_false]
            exact Nat.le_succ_of_le (ih true)

theorem length_decodeEntities_le (l : List Char) :
    (decodeEntities l).length ≤ l.length := by
  induction l using decodeEntities.induct with
  | case1 => simp [decodeEntities]
  | case2 rest ih =>
      simp only [decodeEntities, List.length_cons]
      omega
  | case3 rest ih =>
      simp only [decodeEntities, List.length_cons]
      omega
  | case4 rest ih =>
      simp only [decodeEntities, List.length_cons]
      omega
  | case5 c rest h1 h2 h3 ih =>
      rw [decodeEntities.eq_5 c rest h1 h2 h3]
      simp only [List.length_cons]
      omega

theorem strTrim_textOf_length_le (s : String) :
    (strTrim (textOf s)).length ≤ s.length :=
  calc (strTrim (textOf s)).length
      = (trimChars (decodeEntities (stripTagsAux false s.data))).length := rfl
    _ ≤ (decodeEntities (stripTagsAux false s.data)).length :=
        length_trimChars_le _
    _ ≤ (stripTagsAux false s.data).length := length_decodeEntities_le _
    _ ≤ s.data.length := length_stripTagsAux_le _ _
    _ = s.length := rfl

theorem substantial_innerHTML_pos {p : PNode}
    (hp : substantialNode p = true) : 0 < p.innerHTML.length := by
  have h20 : 20 ≤ (strTrim (textOf p.innerHTML)).length := by
    unfold substantialNode at hp
    simp only [Bool.and_eq_true, decide_eq_true_eq] at hp
    exact hp.2
  have hle := strTrim_textOf_length_le p.innerHTML
  omega

theorem mem_addClass_self (cls : String) (l : List String) :
    cls ∈ addClass cls l := by
  unfold addClass
  split
  · rename_i h
    simpa using h
  · simp

theorem contains_addClass_self (cls : String) (l : List String) :
    (addClass cls l).contains cls = true := by
  simpa using mem_addClass_self cls l

theorem not_mem_removeClass (cls : String) (l : List String) :
    cls ∉ removeClass cls l := by
  unfold removeClass
  intro h
  rcases List.mem_filter.mp h with ⟨-, hne⟩
  simp at hne

theorem not_mem_addClass {a cls : String} (hne : a ≠ cls) {l : List String}
    (h : a ∉ l) : a ∉ addClass cls l := by
  unfold addClass
  split
  · exact h
  · intro hmem
    rcases List.mem_append.mp hmem with h1 | h1
    · exact h h1
    · exact hne (List.mem_singleton.mp h1)

/-- C3: for a paragraph the simplification batch processed successfully
(it stored the pre-transform `innerHTML` in `dataset.originalHTML` and
replaced the content), `removeSimplification` restores `innerHTML`
byte-for-byte, clears the marker class, and clears both snapshot slots.
The substantiality hypothesis is what the batch filter guarantees; it rules
out an empty pre-transform `innerHTML`, whose snapshot would be falsy. -/
theorem simplification_round_trip (p : PNode) (s : String)
    (hp : substantialNode p = true) :
    (removeSimplificationNode (simplifyNode (some s) p)).innerHTML = p.innerHTML
    ∧ simplifiedClass ∉ (removeSimplificationNode (simplifyNode (some s) p)).classes
    ∧ (removeSimplificationNode (simplifyNode (some s) p)).dataOriginalHTML = none
    ∧ (removeSimplificationNode (simplifyNode (some s) p)).dataOriginalText = none := by
  have hpos : 0 < p.innerHTML.length := substantial_innerHTML_pos hp
  have e : removeSimplificationNode (simplifyNode (some s) p) =
      { innerHTML := p.innerHTML
        classes := removeClass simplifiedClass (addClass simplifiedClass p.classes)
        dataOriginalHTML := none
        dataOriginalText := none
        inUnwanted := p.inUnwanted } := by
    unfold removeSimplificationNode simplifyNode
    simp [mem_addClass_self, isTruthy, hpos]
  rw [e]
  exact ⟨rfl, not_mem_removeClass _ _, rfl, rfl⟩

theorem simplification_round_trip_witness :
    substantialNode pPlainPara = true
    ∧ (removeSimplificationNode
        (simplifyNode (some "Plain short text.") pPlainPara)).innerHTML
      = pPlainPara.innerHTML :=
  ⟨by decide,
    (simplification_round_trip pPlainPara "Plain short text." (by decide)).1⟩

/-- C9: reversing an inactive simplification is a no-op — when no paragraph
carries the marker class, `removeSimplification` returns the page unchanged
(and, being a total function, raises nothing). -/
theorem removal_noop_when_inactive (page : List PNode)
    (h : ∀ p ∈ page, simplifiedClass ∉ p.classes) :
    removeSimplification page = page := by
  unfold removeSimplification
  induction page with
  | nil => rfl
  | cons p rest ih =>
      have hp : removeSimplificationNode p = p := by
        have hmem := h p (List.mem_cons_self p rest)
        have hcond : ¬ (p.classes.contains simplifiedClass = true) := by
          simpa using hmem
        unfold removeSimplificationNode
        rw [if_neg hcond]
      rw [List.map_cons, hp, ih (fun q hq => h q (List.mem_cons_of_mem p hq))]

theorem removal_noop_when_inactive_witness :
    (∀ p ∈ [pPlainPara], simplifiedClass ∉ p.classes)
    ∧ removeSimplification [pPlainPara] = [pPlainPara] :=
  ⟨by decide, removal_noop_when_inactive [pPlainPara] (by decide)⟩

/-! ## Simplify / expand interaction -/

theorem not_mem_removeSimplificationNode (p : PNode) :
    simplifiedClass ∉ (removeSimplificationNode p).classes := by
  unfold removeSimplificationNode
  split
  · split
    · exact not_mem_removeClass _ _
    · split
      · exact not_mem_removeClass _ _
      · exact not_mem_removeClass _ _
  · rename_i hc
    intro hmem
    exact hc (by simpa using hmem)

theorem not_mem_expandNode {r : Option String} {p : PNode}
    (hne : simplifiedClass ∉ p.classes) :
    simplifiedClass ∉ (expandNode r p).classes := by
  cases r with
  | some s => exact not_mem_addClass (by decide) hne
  | none => exact not_mem_addClass (by decide) hne

theorem runBatch_expand_not_mem (page : List PNode) :
    ∀ (ai : Nat → Option String) (k : Nat),
      (∀ p ∈ page, simplifiedClass ∉ p.classes) →
      ∀ p ∈ runBatch expandNode ai page k, simplifiedClass ∉ p.classes := by
  induction page with
  | nil =>
      intro ai k h p hp
      simp [runBatch] at hp
  | cons q rest ih =>
      intro ai k h p hp
      rw [runBatch] at hp
      by_cases hs : substantialNode q = true
      · rw [if_pos hs] at hp
        rcases List.mem_cons.mp hp with heq | hp'
        · subst heq
          exact not_mem_expandNode (h q (List.mem_cons_self q rest))
        · exact ih ai (k + 1) (fun x hx => h x (List.mem_cons_of_mem q hx)) p hp'
      · rw [if_neg hs] at hp
        rcases List.mem_cons.mp hp with heq | hp'
        · subst heq
          exact h p (List.mem_cons_self p rest)
        · exact ih ai k (fun x hx => h x (List.mem_cons_of_mem q hx)) p hp'

/-- C4 (amended): the mutual exclusion holds in the expansion direction:
`toggleExpansionMode(true)` while simplification is active
(`state.simplificationLevel > 0`) first runs `removeSimplification`, so
afterwards zero nodes carry the simplify marker class.  The converse
direction of the claim is false — see the counterexample: `applySimplification`
only removes a previous simplification, never an active expansion. -/
theorem expansion_enable_clears_simplification (ai : Nat → Option String)
    (st : EngineState) (page : List PNode)
    (h : 0 < st.simplificationLevel) :
    ∀ p ∈ (toggleExpansionMode true ai st page).2,
      simplifiedClass ∉ p.classes := by
  intro p hp
  unfold toggleExpansionMode at hp
  rw [if_pos rfl, if_pos h] at hp
  exact runBatch_expand_not_mem (removeSimplification page) ai 0
    (fun q hq => by
      rcases List.mem_map.mp hq with ⟨r, -, rfl⟩
      exact not_mem_removeSimplificationNode r)
    p hp

theorem expansion_enable_clears_simplification_witness :
    simplifiedClass ∉
      ((toggleExpansionMode true aiAlwaysSimple stSimplifyActive
          [pSimplifiedPara]).2.headD pPlainPara).classes :=
  expansion_enable_clears_simplification aiAlwaysSimple stSimplifyActive
    [pSimplifiedPara] (by decide) _ (by decide)

/-- C4 counterexample: enabling simplification (level 1) while expansion is
active does not reverse the expansion — the paragraph still carries the
expand marker class afterwards, so the two transforms are not mutually
exclusive in this direction. -/
theorem simplify_enable_keeps_expansion :
    expandedClass ∈
      ((applySimplification 1 aiAlwaysSimple stExpansionActive
          [pExpandedPara]).2.headD pExpandedPara).classes := by
  decide

/-! ## Per-paragraph failure isolation -/

theorem runBatch_append (f : Option String → PNode → PNode)
    (ai : Nat → Option String) (xs ys : List PNode) :
    ∀ k : Nat, runBatch f ai (xs ++ ys) k =
      runBatch f ai xs k ++ runBatch f ai ys (k + countSubstantial xs) := by
  induction xs with
  | nil =>
      intro k
      simp [runBatch, countSubstantial]
  | cons p rest ih =>
      intro k
      by_cases hs : substantialNode p = true
      · have hc : countSubstantial (p :: rest) = countSubstantial rest + 1 := by
          simp [countSubstantial, List.filter_cons, hs]
        have hk : k + countSubstantial (p :: rest)
            = (k + 1) + countSubstantial rest := by
          rw [hc]; omega
        rw [List.cons_append, runBatch, if_pos hs, ih (k + 1), runBatch,
          if_pos hs, hk, List.cons_append]
      · have hc : countSubstantial (p :: rest) = countSubstantial rest := by
          simp [countSubstantial, List.filter_cons, hs]
        rw [List.cons_append, runBatch, if_neg hs, ih k, runBatch,
          if_neg hs, hc, List.cons_append]

/-- C5 (amended): a single paragraph's transform failure never aborts the
batch, and the failed paragraph keeps its original content.  In the
simplification and expansion batches the failed paragraph is additionally
still marked processed (marker class added); in the tone-adjustment batch
(as in active voice and restructuring, whose `catch` blocks only log) the
failed paragraph is left completely untouched — no marker.  Concretely: if
the `n`-th substantial paragraph's external call throws, the batch result is
the untouched-prefix result, the failure-marked paragraph, and the normally
processed suffix. -/
theorem simplification_failure_isolated (ai : Nat → Option String)
    (xs ys : List PNode) (p : PNode)
    (hsub : substantialNode p = true)
    (hfail : ai (countSubstantial xs) = none) :
    applyTextSimplification ai (xs ++ p :: ys) =
      runBatch simplifyNode ai xs 0
        ++ simplifyNode none p
          :: runBatch simplifyNode ai ys (countSubstantial xs + 1)
    ∧ (simplifyNode none p).innerHTML = p.innerHTML
    ∧ simplifiedClass ∈ (simplifyNode none p).classes
    ∧ (expandNode none p).innerHTML = p.innerHTML
    ∧ expandedClass ∈ (expandNode none p).classes
    ∧ toneNode none p = p := by
  refine ⟨?_, rfl, mem_addClass_self _ _, rfl, mem_addClass_self _ _, rfl⟩
  unfold applyTextSimplification
  rw [runBatch_append, Nat.zero_add, runBatch, if_pos hsub, hfail]

theorem simplification_failure_isolated_witness :
    substantialNode pFailurePara = true
    ∧ aiAlwaysFails (countSubstantial []) = none
    ∧ (simplifyNode none pFailurePara).innerHTML = pFailurePara.innerHTML
    ∧ simplifiedClass ∈ (simplifyNode none pFailurePara).classes :=
  ⟨by decide, rfl,
    (simplification_failure_isolated aiAlwaysFails [] [] pFailurePara
      (by decide) rfl).2.1,
    (simplification_failure_isolated aiAlwaysFails [] [] pFailurePara
      (by decide) rfl).2.2.1⟩

/-- C5 counterexample: in the tone-adjustment batch a failed paragraph is
NOT marked processed — it is left completely unchanged and carries no
`cogniread-tone-adjusted` class, contradicting the claim's "still marked
processed" for that batch. -/
theorem tone_failure_not_marked :
    applyToneAdjustmentBatch aiAlwaysFails [pPlainPara] = [pPlainPara]
    ∧ toneClass ∉ pPlainPara.classes := by
  decide

/-! ## Idiom-scanner properties -/

theorem sorted_find_max {pr : String × String → Bool} {x : String × String} :
    ∀ {l : List (String × String)}, l.Sorted lenGE → l.find? pr = some x →
      ∀ y ∈ l, pr y = true → y.1.length ≤ x.1.length := by
  intro l
  induction l with
  | nil =>
      intro _ hf
      simp [List.find?] at hf
  | cons a t ih =>
      intro hs hf y hy hp
      by_cases hpa : pr a = true
      · have hx : a = x := by
          simp [List.find?, hpa] at hf
          exact hf
        rcases List.mem_cons.mp hy with heq | hy'
        · subst heq
          rw [hx]
        · have := (List.sorted_cons.mp hs).1 y hy'
          rw [← hx]
          exact this
      · have hf' : t.find? pr = some x := by
          simpa [List.find?, hpa] using hf
        rcases List.mem_cons.mp hy with heq | hy'
        · subst heq
          exact absurd hp hpa
        · exact ih (List.sorted_cons.mp hs).2 hf' y hy' hp

/-- C7: when dictionary-mode detection reports an idiom, that idiom is a
dictionary entry whose lowercased phrase occurs in the lowercased sentence,
and — because the entries are scanned longest-phrase-first — every other
matching dictionary entry (in particular any matching entry that is a
substring of the reported one) is no longer than the reported one. -/
theorem fallback_longest_match (dict : List (String × String))
    (sentence idiom lit : String)
    (h : fallbackIdiomDetection (some dict) sentence
        = ⟨true, some idiom, some lit⟩) :
    (idiom, lit) ∈ dict
    ∧ strIncludes (strLower sentence) (strLower idiom) = true
    ∧ ∀ e ∈ dict,
        strIncludes (strLower sentence) (strLower e.1) = true →
        e.1.length ≤ idiom.length := by
  simp only [fallbackIdiomDetection, Option.getD] at h
  by_cases hlen : dict.length = 0
  · rw [if_pos hlen] at h
    simp at h
  · rw [if_neg hlen] at h
    cases hfind : (List.insertionSort lenGE dict).find?
        (fun e => strIncludes (strLower sentence) (strLower e.1)) with
    | none =>
        rw [hfind] at h
        simp at h
    | some e =>
        rw [hfind] at h
        simp only [IdiomResult.mk.injEq, Option.some.injEq, true_and] at h
        obtain ⟨h1, h2⟩ := h
        refine ⟨?_, ?_, ?_⟩
        · have hmem : e ∈ List.insertionSort lenGE dict :=
            List.mem_of_find?_eq_some hfind
          have hd : e ∈ dict := by simpa using hmem
          rw [← h1, ← h2]
          exact hd
        · have hpe := List.find?_some hfind
          rw [← h1]
          exact hpe
        · intro e' he' hme'
          have hsorted := List.sorted_insertionSort lenGE dict
          have he'' : e' ∈ List.insertionSort lenGE dict := by simpa using he'
          have hmax := sorted_find_max hsorted hfind e' he'' hme'
          rw [← h1]
          exact hmax

theorem fallback_longest_match_witness :
    ("the ball is in your court", "it is your decision") ∈ IDIOMS_DICTIONARY :=
  (fallback_longest_match IDIOMS_DICTIONARY "Now the ball is in your court."
    "the ball is in your court" "it is your decision" (by decide)).1

/-- C6: the dictionary scan on "Let's break the ice before the meeting."
does NOT detect an idiom: `IDIOMS_DICTIONARY` has no "break the ice" entry
(even though the repository's own docs and its `fallbackIdiomExplanation`
table treat "break the ice" as the canonical idiom), so
`fallbackIdiomDetection` returns `{hasIdiom: false}`, not the claimed
`{hasIdiom: true, idiom: "break the ice"}`. -/
theorem break_the_ice_not_detected :
    fallbackIdiomDetection (some IDIOMS_DICTIONARY)
        "Let\x27s break the ice before the meeting."
      = ⟨false, none, none⟩
    ∧ "break the ice" ∉ IDIOMS_DICTIONARY.map Prod.fst := by
  decide

/-- C10: with `window.IDIOMS_DICTIONARY` absent (`none`) or empty, dictionary
scanning degrades to `{hasIdiom: false}` for every sentence instead of
throwing (`window.IDIOMS_DICTIONARY || {}` followed by the entry-count
guard). -/
theorem missing_dictionary_no_idiom (sentence : String) :
    fallbackIdiomDetection none sentence = ⟨false, none, none⟩
    ∧ fallbackIdiomDetection (some []) sentence = ⟨false, none, none⟩ :=
  ⟨rfl, rfl⟩

/-! ## Chunker exclusion filter -/

/-- C8: a candidate inside `<nav>` is never accepted by `chunkContent`,
regardless of its text length; a candidate inside an article header
(`closest('header')` and `closest('article, main, [role="main"],
[role="article"]')` both match) is not excluded by the header filter and is
accepted whenever it passes the remaining gates (own-UI check, minimum
length, div-container heuristic). -/
theorem nav_excluded_article_header_included (e f : ChunkElement)
    (he : e.inNav = true)
    (hfh : f.inHeader = true) (hfa : f.inArticle = true)
    (hf1 : f.inNav = false) (hf2 : f.inFooter = false)
    (hf3 : f.inAdClass = false) (hf4 : f.inAdvertClass = false)
    (hf5 : f.inScript = false) (hf6 : f.inStyle = false)
    (hf7 : f.inCogniread = false)
    (hlen : (if f.tag = "div" then 50 else 10) ≤ (strTrim f.textContent).length)
    (hdiv : f.tag = "div" → f.childBlocks ≤ 2) :
    includeChunk e = false
    ∧ includeChunk f = true
    ∧ chunkContent [e] = []
    ∧ chunkContent [f] = [(strTrim f.textContent, f.tag)] := by
  have hee : includeChunk e = false := by
    unfold includeChunk
    rw [he]
    simp
  have hff : includeChunk f = true := by
    unfold includeChunk
    rw [hfh, hfa, hf1, hf2, hf3, hf4, hf5, hf6, hf7]
    simp only [Bool.and_self, Bool.not_true, Bool.and_false, Bool.or_false,
      Bool.false_or, Bool.false_eq_true, if_false]
    rw [if_neg (Nat.not_lt.mpr hlen)]
    by_cases htag : f.tag = "div"
    · have h2 := Nat.not_lt.mpr (hdiv htag)
      simp [htag, h2]
    · simp [htag]
  refine ⟨hee, hff, ?_, ?_⟩
  · simp [chunkContent, List.filter_cons, hee]
  · simp [chunkContent, List.filter_cons, hff]

theorem nav_excluded_article_header_included_witness :
    includeChunk eNavElement = false
    ∧ includeChunk eArticleHeaderElement = true :=
  ⟨(nav_excluded_article_header_included eNavElement eArticleHeaderElement
      (by decide) (by decide) (by decide) (by decide) (by decide) (by decide)
      (by decide) (by decide) (by decide) (by decide) (by decide)
      (by decide)).1,
    (nav_excluded_article_header_included eNavElement eArticleHeaderElement
      (by decide) (by decide) (by decide) (by decide) (by decide) (by decide)
      (by decide) (by decide) (by decide) (by decide) (by decide)
      (by decide)).2.1⟩

theorem missing_dictionary_no_idiom_witness :
    fallbackIdiomDetection none "Any sentence." = ⟨false, none, none⟩ :=
  (missing_dictionary_no_idiom "Any sentence.").1
